import Mathlib

/-!
# Verification of the `ml-xgboost` WebAssembly wrapper

A shallow embedding of `src/loadXGBoost.js`: the `XGBoost` class wrapping a
precompiled gradient-boosting engine reached through a small foreign-function
interface (`create_model`, `set_param`, `train_full_model`, `predict_one`,
`save_model`/`get_file_content`, `load_model`, `free_memory_model`).

JavaScript numbers are modelled as rationals (`ℚ`), JS exceptions as an
explicit `Except` whose error also carries the object state at the moment of
the throw (JS exceptions do not roll mutations back), and the opaque engine
handle as a value of an abstract model type threaded through an explicit
`EngineAPI` record of the cwrap-imported functions.  The engine itself is not
part of the wrapper's source; where a claim depends on it, a concrete engine
is modelled from the specification (see `SpecEngine` below).
-/

namespace MlXGBoost

/-- A JavaScript value as it occurs in the wrapper's option bags:
either a number or a string. -/
inductive JSValue : Type
  | num (q : ℚ)
  | str (s : String)
  deriving DecidableEq, Repr

/-- Rendering of a JS number by `Number.prototype.toString`.  For integers the
decimal rendering is exact; for non-integers JS prints a shortest decimal for
the underlying float, which has no counterpart on `ℚ` — the rendering of a
non-integral rational is abstracted (no claim depends on its digits). -/
def ratToJSString (q : ℚ) : String :=
  if q.den = 1 then toString q.num else toString q.num ++ "/" ++ toString q.den

/-- `value.toString()` as invoked in the constructor's stringification loop. -/
def JSValue.toJSString : JSValue → String
  | .num q => ratToJSString q
  | .str s => s

/-- A JS object used as an option bag: association list in insertion order
(first binding of a key is the authoritative one). -/
abbrev JSObject : Type := List (String × JSValue)

/-- Property read `o[k]`: `none` models `undefined`. -/
def lookupJS (o : JSObject) (k : String) : Option JSValue :=
  (o.find? (fun kv => kv.1 = k)).map (·.2)

/-- Property write `o[k] = v`: overwrite in place when the key exists,
append otherwise (JS preserves insertion order of keys). -/
def setKeyJS (o : JSObject) (k : String) (v : JSValue) : JSObject :=
  if (lookupJS o k).isSome then
    o.map (fun kv => if kv.1 = k then (k, v) else kv)
  else
    o ++ [(k, v)]

/-- `Object.assign({}, base, ext)`: keys of `base` in order with `ext`'s value
when `ext` also has the key, then the keys of `ext` absent from `base`. -/
def objAssign (base ext : JSObject) : JSObject :=
  (base.map (fun kv =>
    match lookupJS ext kv.1 with
    | some v => (kv.1, v)
    | none => kv))
  ++ ext.filter (fun kv => (lookupJS base kv.1).isNone)

/-- The `defaultOptions` constant of `loadXGBoost.js`. -/
def defaultOptions : JSObject :=
  [("booster", .str "gbtree"),
   ("objective", .str "reg:linear"),
   ("max_depth", .num 5),
   ("eta", .num (1/10)),
   ("min_child_weight", .num 1),
   ("subsample", .num (1/2)),
   ("colsample_bytree", .num 1),
   ("silent", .num 1),
   ("iterations", .num 200)]

/-- The stringification loop at the end of the constructor: every option value
except the one under the key `iterations` is replaced by its `toString()`. -/
def stringifyOptions (o : JSObject) : JSObject :=
  o.map (fun kv => if kv.1 = "iterations" then kv else (kv.1, .str kv.2.toJSString))

/-- JS exceptions thrown by the wrapper or by `ml-matrix`. -/
inductive JSError : Type
  | error (msg : String)        -- `new Error(msg)`
  | rangeError (msg : String)   -- `new RangeError(msg)`
  | typeError (msg : String)    -- `new TypeError(msg)` (from ml-matrix)
  deriving DecidableEq, Repr

/-- `Matrix.checkMatrix` of the `ml-matrix` dependency (modelled from its
documented behaviour): a 2-D numeric array is accepted when it is non-empty
and rectangular, the row and column counts being the outer length and the
first row's length; otherwise the `Matrix` constructor throws. -/
def checkMatrix (a : List (List ℚ)) : Except JSError (List (List ℚ)) :=
  match a with
  | [] => .error (.typeError "Data must be a 2D array with at least one element")
  | r :: rs =>
    if rs.all (fun row => row.length = r.length) then .ok (r :: rs)
    else .error (.rangeError "Inconsistent array dimensions")

/-- The cwrap-imported engine interface, abstract in the handle type `M`.
The C-side mutation of the model behind the handle is modelled by explicit
state passing: `set_param` and `train_full` return the updated model.  A
`none` handle models the falsy JS values `undefined`/`0` being passed across
the boundary (`predict_one` is called by the wrapper without any trained-model
check). -/
structure EngineAPI (M : Type) where
  create_model : List ℚ → List ℚ → Nat → Nat → M
  set_param : M → String → JSValue → M
  train_full : M → Option JSValue → M
  predict_one : Option M → List ℚ → Nat → ℚ
  save_model : M → Option (List Int)
  load_model : List Int → Option M

/-- The observable state of an `XGBoost` instance: the `checkLabels` flag,
the model handle (`none` = `undefined`, i.e. never trained/loaded), and the
`options` bag. -/
structure XGBoost (M : Type) where
  checkLabels : Bool
  model : Option M
  options : JSObject
  deriving DecidableEq

/-- The shape of the object returned by `toJSON` and accepted by `load`. -/
structure SavedModel where
  name : String
  model : List Int
  options : JSObject
  deriving DecidableEq

/-- The constructor's ordinary path (`options !== true`): record whether the
objective is `multi:softmax`, merge the options over the defaults, and
stringify every value but `iterations`.  No validation of any kind is
performed and construction never fails. -/
def constructorFresh {M : Type} (options : JSObject) : XGBoost M :=
  { checkLabels := lookupJS options "objective" = some (.str "multi:softmax"),
    model := none,
    options := stringifyOptions (objAssign defaultOptions options) }

/-- The constructor's load path (`options === true`): feed the saved bytes to
`load_model`, fail when the engine returns the null handle, otherwise adopt
the saved options (then stringified).  `checkLabels` is left `undefined`
(falsy), modelled as `false`. -/
def constructorLoad {M : Type} (api : EngineAPI M) (saved : SavedModel) :
    Except JSError (XGBoost M) :=
  match api.load_model saved.model with
  | none => .error (.error "Error while loading the model!")
  | some m =>
    .ok { checkLabels := false,
          model := some m,
          options := stringifyOptions saved.options }

/-- The `set_param` loop of `train`: every option except `iterations` is
forwarded, in key order, with the stored value. -/
def setParams {M : Type} (api : EngineAPI M) (m : M) (opts : JSObject) : M :=
  opts.foldl (fun acc kv =>
    if kv.1 = "iterations" then acc else api.set_param acc kv.1 kv.2) m

/-- The list of `(name, value)` pairs `setParams` forwards to `set_param`,
in call order. -/
def setParamCalls (opts : JSObject) : JSObject :=
  opts.filter (fun kv => kv.1 ≠ "iterations")

/-- `XGBoost.prototype.train`.  Mutations made before a throw survive the
throw in JS, so the error case carries the state at the moment of the throw:
for a `multi:softmax` booster `options.num_class` is assigned the distinct
label count *before* `Matrix.checkMatrix` runs.  The success case overwrites
the handle with the freshly created, parameterised and trained model. -/
def XGBoost.train {M : Type} (api : EngineAPI M) (b : XGBoost M)
    (trainingSet : List (List ℚ)) (trainingValues : List ℚ) :
    Except (JSError × XGBoost M) (XGBoost M) :=
  let b1 : XGBoost M :=
    if b.checkLabels then
      { b with options := (setKeyJS b.options "num_class"
          (.str (toString trainingValues.dedup.length))) }
    else b
  match checkMatrix trainingSet with
  | .error e => .error (e, b1)
  | .ok X =>
    let rows := X.length
    let cols := (X.headD []).length
    let flat := X.flatten
    let m0 := api.create_model flat trainingValues rows cols
    let m1 := setParams api m0 b1.options
    let m2 := api.train_full m1 (lookupJS b1.options "iterations")
    .ok { b1 with model := some m2 }

/-- `XGBoost.prototype.predict`: one `predict_one` call per row, the handle
passed through unconditionally (no trained-model check). -/
def XGBoost.predict {M : Type} (api : EngineAPI M) (b : XGBoost M)
    (toPredict : List (List ℚ)) : Except JSError (List ℚ) :=
  match checkMatrix toPredict with
  | .error e => .error e
  | .ok X =>
    .ok (X.map (fun row => api.predict_one b.model row (X.headD []).length))

/-- `XGBoost.prototype.toJSON`: fails when no model handle is present, or when
`save_model` reports failure (size `-1`); otherwise packages the serialized
bytes (the `save_model`/`get_file_content`/byte-read sequence is modelled as
the engine producing the byte list) under the name tag `ml-xgboost` together
with the current options. -/
def XGBoost.toJSON {M : Type} (api : EngineAPI M) (b : XGBoost M) :
    Except JSError SavedModel :=
  match b.model with
  | none => .error (.error "No model trained to save")
  | some m =>
    match api.save_model m with
    | none => .error (.error "Error while saving the model, please report this error")
    | some bytes =>
      .ok { name := "ml-xgboost", model := bytes, options := b.options }

/-- `XGBoost.load` (static): reject any object whose `name` is not
`ml-xgboost` with a `RangeError`, otherwise defer to the constructor's load
path. -/
def XGBoost.load {M : Type} (api : EngineAPI M) (saved : SavedModel) :
    Except JSError (XGBoost M) :=
  if saved.name ≠ "ml-xgboost" then
    .error (.rangeError ("Invalid model: " ++ saved.name))
  else
    constructorLoad api saved

/-- The state in which a `train` call leaves the booster, in both outcomes
(JS exceptions do not undo mutations). -/
def trainResultState {M : Type} :
    Except (JSError × XGBoost M) (XGBoost M) → XGBoost M
  | .error (_, b) => b
  | .ok b => b

/-!
## The engine behind the foreign-function boundary

The compiled engine's code is not part of this repository; `loadXGBoost.js`
only declares its entry points through `cwrap`.  The definitions in this
section are modelled from the specification's reconstruction of that engine
(spec sections 3, 4.2, 4.3, 4.5, 4.6): trees stored as flat node arrays with
index-based children, an ensemble carrying `{objective, learningRate,
numClasses, featureCount}` metadata, a deterministic structured serialization
of exactly those fields plus the tree list, and a predictor that routes a row
through every tree (`row[featureIndex] <= threshold` goes left) and sums leaf
values, with per-class grouping and argmax for the multi-class objective. -/

namespace SpecEngine

/-- Modelled from the spec: a tree node — `Internal {featureIndex, threshold,
leftChild, rightChild}` or `Leaf {value}` (spec section 3). -/
inductive TNode : Type
  | internal (featureIndex : Nat) (threshold : ℚ) (leftChild rightChild : Nat)
  | leaf (value : ℚ)
  deriving DecidableEq, Repr

/-- Modelled from the spec: the ensemble — an ordered list of trees (each a
flat node array, root at index 0) plus metadata (spec section 3). -/
structure Ensemble : Type where
  objective : String
  learningRate : ℚ
  numClasses : Nat
  featureCount : Nat
  trees : List (List TNode)
  deriving DecidableEq, Repr

/-- Descend from node `i`, fuelled by the node count so that the traversal is
total even on ill-formed arenas (a well-formed tree never exhausts the fuel). -/
def evalNode (nodes : List TNode) (row : List ℚ) : Nat → Nat → ℚ
  | 0, _ => 0
  | fuel + 1, i =>
    match nodes.get? i with
    | some (.leaf v) => v
    | some (.internal f t l r) =>
      if row.getD f 0 ≤ t then evalNode nodes row fuel l
      else evalNode nodes row fuel r
    | none => 0

/-- Evaluate one tree on a row, starting at the root (index 0). -/
def evalTree (nodes : List TNode) (row : List ℚ) : ℚ :=
  evalNode nodes row nodes.length 0

/-- Raw score: sum of the leaf values reached in every tree (spec 4.6). -/
def sumTrees (e : Ensemble) (row : List ℚ) : ℚ :=
  (e.trees.map (fun t => evalTree t row)).sum

/-- Per-class raw score: multi-class boosting appends one tree per class per
round, so tree `i` belongs to class `i % numClasses` (spec 4.3, 4.6). -/
def classScore (e : Ensemble) (row : List ℚ) (c : Nat) : ℚ :=
  ((e.trees.enum.filter (fun p => p.1 % e.numClasses = c)).map
    (fun p => evalTree p.2 row)).sum

/-- Index of the first maximal entry (argmax link for class selection). -/
def argmaxIdx (l : List ℚ) : Nat :=
  (l.enum.foldl (fun best p => if best.2 < p.2 then p else best)
    (0, l.headD 0)).1

/-- Modelled from the spec: the predictor (spec 4.6) — for the multi-class
objective, group raw scores per class and take the argmax; otherwise the
identity link on the summed raw score. -/
def predictRaw (e : Ensemble) (row : List ℚ) : ℚ :=
  if e.objective = "multi:softmax" ∧ 0 < e.numClasses then
    (argmaxIdx ((List.range e.numClasses).map (classScore e row)) : ℚ)
  else sumTrees e row

/-- Decimal-digit parser for the stringified parameters the wrapper forwards
(`set_param` receives every value as a string). -/
def parseNatCore : List Char → Nat → Option Nat
  | [], acc => some acc
  | c :: cs, acc =>
    if c.isDigit then parseNatCore cs (10 * acc + (c.toNat - 48)) else none

/-- `none` when the string is not a plain decimal natural. -/
def parseNatJS (s : String) : Option Nat :=
  if s.isEmpty then none else parseNatCore s.toList 0

/-- Parse a non-negative decimal such as `0.1` into an exact rational. -/
def parseRatJS (s : String) : Option ℚ :=
  match s.splitOn "." with
  | [a] => (parseNatJS a).map (fun n => (n : ℚ))
  | [a, b] => do
    let ia ← parseNatJS a
    let ib ← parseNatJS b
    pure ((ia : ℚ) + (ib : ℚ) / ((10 : ℚ) ^ b.length))
  | _ => none

/-- The engine-side model a handle points to: the cached training buffers
(`create_model` receives the data and label arrays) and the ensemble grown by
training.  Saved models carry only the ensemble. -/
structure EngineModel : Type where
  data : List (List ℚ)
  labels : List ℚ
  ensemble : Ensemble
  deriving DecidableEq, Repr

/-- Split the flat row-major buffer back into `rows` rows of `cols` entries,
as `create_model(data, labels, rows, cols)` does on the C side. -/
def splitRows (cols : Nat) : Nat → List ℚ → List (List ℚ)
  | 0, _ => []
  | r + 1, l => l.take cols :: splitRows cols r (l.drop cols)

/-- Modelled from the spec: `create_model` — cache the buffers and start from
the empty ensemble with the engine's documented defaults
(`objective = reg:linear`, `eta = 0.3`). -/
def createModel (flat labels : List ℚ) (rows cols : Nat) : EngineModel :=
  { data := splitRows cols rows flat,
    labels := labels,
    ensemble :=
      { objective := "reg:linear", learningRate := 3/10, numClasses := 0,
        featureCount := cols, trees := [] } }

/-- Modelled from the spec: `set_param` — update the ensemble metadata the
predictor and serializer depend on (`objective`, `eta`, `num_class`).  The
remaining keys only shape split search, which the modelled tree builder (the
single-leaf edge case of spec 4.2) does not perform, so they are accepted and
ignored. -/
def setParamModel (em : EngineModel) (k : String) (v : JSValue) : EngineModel :=
  let s := v.toJSString
  if k = "objective" then
    { em with ensemble := { em.ensemble with objective := s } }
  else if k = "eta" then
    match parseRatJS s with
    | some q => { em with ensemble := { em.ensemble with learningRate := q } }
    | none => em
  else if k = "num_class" then
    match parseNatJS s with
    | some n => { em with ensemble := { em.ensemble with numClasses := n } }
    | none => em
  else em

/-- One boosting round (spec 4.3), with the tree builder modelled at its
empty-split edge case (spec 4.2: a single-`Leaf` tree): the appended leaf is
the learning-rate-scaled mean residual of the squared-error objective. -/
def boostRound (em : EngineModel) : EngineModel :=
  let preds := em.data.map (sumTrees em.ensemble)
  let resids := List.zipWith (fun y p => y - p) em.labels preds
  let n := resids.length
  let leaf := if n = 0 then (0 : ℚ) else em.ensemble.learningRate * (resids.sum / n)
  { em with ensemble :=
      { em.ensemble with trees := em.ensemble.trees ++ [[TNode.leaf leaf]] } }

/-- The `iterations` option crossing the cwrap `number` boundary. -/
def jsToIterations : Option JSValue → Nat
  | some (.num q) => q.num.toNat
  | some (.str s) => (parseNatJS s).getD 0
  | none => 0

/-- Modelled from the spec: `train_full_model` loops for the configured number
of rounds, appending one tree per round (spec 4.3). -/
def trainFull (em : EngineModel) (iters : Option JSValue) : EngineModel :=
  boostRound^[jsToIterations iters] em

/-!
### Model serializer (spec 4.5)

A deterministic structured encoding of `{objective, learningRate, numClasses,
featureCount, trees}` into a flat stream of integers (the byte array the
wrapper reads out of the engine's heap), each tree written as a flat node
array in its own index order.  Every decoder is proved to invert its encoder
on any continuation, which yields the round-trip law. -/

/-- Encode a natural number as one stream token. -/
def encNat (n : Nat) : List Int := [(n : Int)]

/-- Decode one non-negative token. -/
def decNat : List Int → Option (Nat × List Int)
  | [] => none
  | x :: xs => if 0 ≤ x then some (x.toNat, xs) else none

/-- Encode a rational as numerator and (positive) denominator. -/
def encRat (q : ℚ) : List Int := [q.num, (q.den : Int)]

/-- Decode a rational: no precision is lost (spec 4.5 forbids lossy encoding
of thresholds and leaf values). -/
def decRat : List Int → Option (ℚ × List Int)
  | a :: b :: xs => if 0 < b then some ((a : ℚ) / (b : ℚ), xs) else none
  | _ => none

/-- Encode a string as its length followed by its character codes. -/
def encString (s : String) : List Int :=
  encNat s.length ++ s.toList.map (fun c => (c.toNat : Int))

/-- Decode `n` character codes. -/
def decChars : Nat → List Int → Option (List Char × List Int)
  | 0, xs => some ([], xs)
  | _ + 1, [] => none
  | n + 1, x :: xs => do
    let (cs, r) ← decChars n xs
    pure (Char.ofNat x.toNat :: cs, r)

/-- Decode a length-prefixed string. -/
def decString (xs : List Int) : Option (String × List Int) := do
  let (n, r1) ← decNat xs
  let (cs, r2) ← decChars n r1
  pure (String.mk cs, r2)

/-- Encode a list as its length followed by the encodings of its elements. -/
def encListWith {α : Type} (enc : α → List Int) (xs : List α) : List Int :=
  encNat xs.length ++ (xs.map enc).flatten

/-- Decode `n` elements with the given element decoder. -/
def decListWith {α : Type} (dec : List Int → Option (α × List Int)) :
    Nat → List Int → Option (List α × List Int)
  | 0, xs => some ([], xs)
  | n + 1, xs => do
    let (a, r1) ← dec xs
    let (as, r2) ← decListWith dec n r1
    pure (a :: as, r2)

/-- Decode a length-prefixed list. -/
def decListFull {α : Type} (dec : List Int → Option (α × List Int))
    (xs : List Int) : Option (List α × List Int) := do
  let (n, r1) ← decNat xs
  decListWith dec n r1

/-- Encode a node: tag `0` for internal, tag `1` for leaf. -/
def encTNode : TNode → List Int
  | .internal f t l r => 0 :: (encNat f ++ encRat t ++ encNat l ++ encNat r)
  | .leaf v => 1 :: encRat v

/-- Decode a node. -/
def decTNode : List Int → Option (TNode × List Int)
  | 0 :: rest => do
    let (f, r1) ← decNat rest
    let (t, r2) ← decRat r1
    let (l, r3) ← decNat r2
    let (r, r4) ← decNat r3
    pure (TNode.internal f t l r, r4)
  | 1 :: rest => do
    let (v, r1) ← decRat rest
    pure (TNode.leaf v, r1)
  | _ => none

/-- Modelled from the spec: the serializer (spec 4.5) — metadata fields in a
fixed order, then the tree list. -/
def serializeEnsemble (e : Ensemble) : List Int :=
  encString e.objective ++ encRat e.learningRate ++ encNat e.numClasses ++
    encNat e.featureCount ++ encListWith (encListWith encTNode) e.trees

/-- Modelled from the spec: the deserializer — parse the fields back and
reject any malformed or trailing input. -/
def deserializeEnsemble (xs : List Int) : Option Ensemble := do
  let (obj, r1) ← decString xs
  let (lr, r2) ← decRat r1
  let (nc, r3) ← decNat r2
  let (fc, r4) ← decNat r3
  let (ts, r5) ← decListFull (decListFull decTNode) r4
  if r5.isEmpty then pure ⟨obj, lr, nc, fc, ts⟩ else none

theorem decNat_encNat (n : Nat) (r : List Int) :
    decNat (encNat n ++ r) = some (n, r) := by
  simp [encNat, decNat]

theorem decRat_encRat (q : ℚ) (r : List Int) :
    decRat (encRat q ++ r) = some (q, r) := by
  simp only [encRat, List.cons_append, List.nil_append, decRat]
  rw [if_pos (by exact_mod_cast q.pos)]
  have hd : (((q.den : Int) : ℚ)) = ((q.den : ℚ)) := by push_cast; ring
  rw [hd, Rat.num_div_den]

theorem decChars_encChars (cs : List Char) (r : List Int) :
    decChars cs.length (cs.map (fun c => (c.toNat : Int)) ++ r) =
      some (cs, r) := by
  induction cs with
  | nil => simp [decChars]
  | cons c cs ih =>
    simp [decChars, ih, Char.ofNat_toNat]

theorem decString_encString (s : String) (r : List Int) :
    decString (encString s ++ r) = some (s, r) := by
  have hlen : s.length = s.toList.length := rfl
  have hmk : String.mk s.toList = s := rfl
  simp only [encString, decString, List.append_assoc, decNat_encNat,
    Option.bind_eq_bind, Option.some_bind, hlen, decChars_encChars, hmk]
  rfl

theorem decTNode_encTNode (t : TNode) (r : List Int) :
    decTNode (encTNode t ++ r) = some (t, r) := by
  cases t with
  | internal f th l ri =>
    simp [encTNode, decTNode, List.append_assoc, decNat_encNat, decRat_encRat]
  | leaf v =>
    simp [encTNode, decTNode, decRat_encRat]

theorem decListWith_encListWith {α : Type}
    (dec : List Int → Option (α × List Int)) (enc : α → List Int)
    (h : ∀ a r, dec (enc a ++ r) = some (a, r)) (xs : List α) (r : List Int) :
    decListWith dec xs.length ((xs.map enc).flatten ++ r) = some (xs, r) := by
  induction xs with
  | nil => simp [decListWith]
  | cons x xs ih =>
    simp [decListWith, List.append_assoc, h, ih]

theorem decListFull_encListWith {α : Type}
    (dec : List Int → Option (α × List Int)) (enc : α → List Int)
    (h : ∀ a r, dec (enc a ++ r) = some (a, r)) (xs : List α) (r : List Int) :
    decListFull dec (encListWith enc xs ++ r) = some (xs, r) := by
  simp [decListFull, encListWith, List.append_assoc, decNat_encNat,
    decListWith_encListWith dec enc h]

/-- Round-trip law of the modelled serializer (spec 4.5): decoding an encoded
ensemble restores it exactly. -/
theorem deserialize_serialize (e : Ensemble) :
    deserializeEnsemble (serializeEnsemble e) = some e := by
  have htree : ∀ (t : List TNode) (r : List Int),
      decListFull decTNode (encListWith encTNode t ++ r) = some (t, r) :=
    decListFull_encListWith decTNode encTNode decTNode_encTNode
  have hts : ∀ r, decListFull (decListFull decTNode)
      (encListWith (encListWith encTNode) e.trees ++ r) = some (e.trees, r) :=
    fun r => decListFull_encListWith _ _ htree e.trees r
  have hts0 : decListFull (decListFull decTNode)
      (encListWith (encListWith encTNode) e.trees) = some (e.trees, []) := by
    have := hts []
    simpa using this
  simp [deserializeEnsemble, serializeEnsemble, List.append_assoc,
    decString_encString, decRat_encRat, decNat_encNat, hts0]

end SpecEngine

/-- The modelled engine packaged as the cwrap interface the wrapper consumes.
`predict_one` receives the handle unchecked; a `none` handle (the wrapper
passing `undefined` across the boundary) is modelled as yielding `0`.
`save_model` composes the spec serializer with the heap read-out;
`load_model` rejects bytes the deserializer cannot parse (null handle). -/
def specEngine : EngineAPI SpecEngine.EngineModel :=
  { create_model := SpecEngine.createModel,
    set_param := SpecEngine.setParamModel,
    train_full := SpecEngine.trainFull,
    predict_one := fun m row _cols =>
      match m with
      | some em => SpecEngine.predictRaw em.ensemble row
      | none => 0,
    save_model := fun em => some (SpecEngine.serializeEnsemble em.ensemble),
    load_model := fun bytes =>
      (SpecEngine.deserializeEnsemble bytes).map
        (fun e => { data := [], labels := [], ensemble := e }) }

/-!
## Laws of the option bag
-/

theorem lookupJS_cons (kv : String × JSValue) (o : JSObject) (k : String) :
    lookupJS (kv :: o) k = if kv.1 = k then some kv.2 else lookupJS o k := by
  by_cases h : kv.1 = k <;> simp [lookupJS, List.find?_cons, h]

theorem lookupJS_append (l1 l2 : JSObject) (k : String) :
    lookupJS (l1 ++ l2) k = (lookupJS l1 k).or (lookupJS l2 k) := by
  cases h : List.find? (fun kv => kv.1 = k) l1 <;>
    simp [lookupJS, List.find?_append, h]

/-- Looking a key up after the constructor's stringification loop. -/
theorem lookupJS_stringify (o : JSObject) (k : String) :
    lookupJS (stringifyOptions o) k =
      (lookupJS o k).map
        (fun v => if k = "iterations" then v else .str v.toJSString) := by
  induction o with
  | nil => simp [stringifyOptions, lookupJS]
  | cons kv o ih =>
    have hEta : (if kv.1 = "iterations" then kv else (kv.1, JSValue.str kv.2.toJSString))
        = (kv.1, if kv.1 = "iterations" then kv.2 else JSValue.str kv.2.toJSString) := by
      split <;> rfl
    simp only [stringifyOptions, List.map_cons] at ih ⊢
    rw [hEta, lookupJS_cons, lookupJS_cons]
    by_cases hk : kv.1 = k
    · subst hk
      simp
    · rw [if_neg hk, if_neg hk, ih]

/-- Every non-`iterations` value in a stringified bag is a string. -/
theorem stringify_values_are_strings (o : JSObject) (kv : String × JSValue)
    (hm : kv ∈ stringifyOptions o) (hk : kv.1 ≠ "iterations") :
    ∃ s, kv.2 = JSValue.str s := by
  rcases List.mem_map.mp hm with ⟨kv0, _, hkv⟩
  by_cases hi : kv0.1 = "iterations"
  · rw [← hkv] at hk ⊢
    simp [hi] at hk
  · exact ⟨kv0.2.toJSString, by rw [← hkv]; simp [hi]⟩

theorem lookupJS_assignMap (a b : JSObject) (k : String) :
    lookupJS (a.map (fun kv =>
        match lookupJS b kv.1 with
        | some v => (kv.1, v)
        | none => kv)) k =
      (lookupJS a k).map (fun v => (lookupJS b k).getD v) := by
  induction a with
  | nil => simp [lookupJS]
  | cons kv a ih =>
    by_cases hk : kv.1 = k
    · subst hk
      cases hb : lookupJS b kv.1 <;> simp [lookupJS_cons, hb, List.map_cons]
    · cases hb : lookupJS b kv.1 <;>
        simpa [lookupJS_cons, hb, List.map_cons, hk] using ih

theorem lookupJS_filter_unowned_of_some (a b : JSObject) (k : String) (w : JSValue)
    (ha : lookupJS a k = some w) :
    lookupJS (b.filter (fun kv => (lookupJS a kv.1).isNone)) k = none := by
  induction b with
  | nil => simp [lookupJS]
  | cons kv b ih =>
    by_cases hk : kv.1 = k
    · have hp : (lookupJS a kv.1).isNone = false := by rw [hk, ha]; rfl
      rw [List.filter_cons, if_neg (by rw [hp]; simp)]
      exact ih
    · cases hp : (lookupJS a kv.1).isNone with
      | true =>
        rw [List.filter_cons, if_pos hp, lookupJS_cons, if_neg hk]
        exact ih
      | false =>
        rw [List.filter_cons, if_neg (by rw [hp]; simp)]
        exact ih

theorem lookupJS_filter_unowned_of_none (a b : JSObject) (k : String)
    (ha : lookupJS a k = none) :
    lookupJS (b.filter (fun kv => (lookupJS a kv.1).isNone)) k = lookupJS b k := by
  induction b with
  | nil => simp [lookupJS]
  | cons kv b ih =>
    by_cases hk : kv.1 = k
    · have hp : (lookupJS a kv.1).isNone = true := by rw [hk, ha]; rfl
      rw [List.filter_cons, if_pos hp, lookupJS_cons, lookupJS_cons,
        if_pos hk, if_pos hk]
    · cases hp : (lookupJS a kv.1).isNone with
      | true =>
        rw [List.filter_cons, if_pos hp, lookupJS_cons, lookupJS_cons,
          if_neg hk, if_neg hk, ih]
      | false =>
        rw [List.filter_cons, if_neg (by rw [hp]; simp), lookupJS_cons,
          if_neg hk, ih]

/-- `Object.assign({}, base, ext)` gives `ext` priority on lookup. -/
theorem lookupJS_objAssign (a b : JSObject) (k : String) :
    lookupJS (objAssign a b) k = (lookupJS b k).or (lookupJS a k) := by
  unfold objAssign
  rw [lookupJS_append, lookupJS_assignMap]
  cases ha : lookupJS a k with
  | none => simp [lookupJS_filter_unowned_of_none a b k ha]
  | some w =>
    rw [lookupJS_filter_unowned_of_some a b k w ha]
    cases hb : lookupJS b k <;> simp

theorem lookupJS_setKeyJS_map (o : JSObject) (k k' : String) (v : JSValue)
    (h : k' ≠ k) :
    lookupJS (o.map (fun kv => if kv.1 = k then (k, v) else kv)) k' =
      lookupJS o k' := by
  induction o with
  | nil => simp [lookupJS]
  | cons kv o ih =>
    by_cases hk : kv.1 = k
    · subst hk
      have h' : ¬ (kv.1 = k') := fun hc => h hc.symm
      simpa [lookupJS_cons, h'] using ih
    · rw [List.map_cons, if_neg hk, lookupJS_cons, lookupJS_cons, ih]

theorem lookupJS_setKeyJS_map_self (o : JSObject) (k : String) (v w : JSValue)
    (hw : lookupJS o k = some w) :
    lookupJS (o.map (fun kv => if kv.1 = k then (k, v) else kv)) k = some v := by
  induction o with
  | nil => simp [lookupJS] at hw
  | cons kv o ih =>
    by_cases hk : kv.1 = k
    · simp [List.map_cons, hk, lookupJS_cons]
    · rw [lookupJS_cons, if_neg hk] at hw
      rw [List.map_cons, if_neg hk, lookupJS_cons, if_neg hk]
      exact ih hw

/-- The property write `o[k] = v` is observable at `k`. -/
theorem lookupJS_setKeyJS_self (o : JSObject) (k : String) (v : JSValue) :
    lookupJS (setKeyJS o k v) k = some v := by
  unfold setKeyJS
  cases hs : lookupJS o k with
  | none =>
    rw [if_neg (by simp [hs]), lookupJS_append, hs, Option.none_or,
      lookupJS_cons]
    simp
  | some w =>
    simp only [hs, Option.isSome_some, if_true]
    exact lookupJS_setKeyJS_map_self o k v w hs

/-- The property write `o[k] = v` leaves every other key unchanged. -/
theorem lookupJS_setKeyJS_other (o : JSObject) (k k' : String) (v : JSValue)
    (h : k' ≠ k) :
    lookupJS (setKeyJS o k v) k' = lookupJS o k' := by
  unfold setKeyJS
  cases hs : lookupJS o k with
  | none =>
    have h' : ¬ (k = k') := fun hc => h hc.symm
    simp [hs, lookupJS_append, lookupJS_cons, h', lookupJS]
  | some w =>
    simp only [hs, Option.isSome_some, if_true]
    exact lookupJS_setKeyJS_map o k k' v h

/-- `Matrix.checkMatrix` hands back the very array it validated. -/
theorem checkMatrix_ok_eq (D X : List (List ℚ)) (h : checkMatrix D = .ok X) :
    X = D := by
  cases D with
  | nil => simp [checkMatrix] at h
  | cons r rs =>
    simp only [checkMatrix] at h
    split at h
    · injection h with h
      exact h.symm
    · simp at h

/-- The `set_param` loop forwards exactly the non-`iterations` entries of the
option bag, in order. -/
theorem setParams_eq_calls {M : Type} (api : EngineAPI M) (m : M)
    (opts : JSObject) :
    setParams api m opts =
      (setParamCalls opts).foldl (fun acc kv => api.set_param acc kv.1 kv.2) m := by
  induction opts generalizing m with
  | nil => rfl
  | cons kv opts ih =>
    by_cases hk : kv.1 = "iterations"
    · simp only [setParams, List.foldl_cons, if_pos hk, setParamCalls,
        List.filter_cons, hk]
      simpa [setParams, setParamCalls] using ih m
    · simp only [setParams, List.foldl_cons, if_neg hk, setParamCalls,
        List.filter_cons]
      rw [if_pos (by simp [hk])]
      simpa [setParams, setParamCalls] using ih (api.set_param m kv.1 kv.2)

/-!
## The claims
-/

/-- C1: serialization round-trip preserves predictions — for every trained
Booster `b` (its handle holding some engine model `em`) and every dataset `D`,
saving via `toJSON`, re-loading via `load`, and predicting on `D` gives
exactly the predictions of `b` on `D`.  The engine's save/load/predict are
the spec-modelled `specEngine` (spec 4.5/4.6); the round-trip rests on
`deserialize_serialize`. -/
theorem claim1_serialization_roundtrip
    (b : XGBoost SpecEngine.EngineModel) (em : SpecEngine.EngineModel)
    (hb : b.model = some em) (D : List (List ℚ)) :
    ∃ sm b2, XGBoost.toJSON specEngine b = .ok sm ∧
      XGBoost.load specEngine sm = .ok b2 ∧
      XGBoost.predict specEngine b2 D = XGBoost.predict specEngine b D := by
  refine ⟨{ name := "ml-xgboost",
            model := SpecEngine.serializeEnsemble em.ensemble,
            options := b.options },
          { checkLabels := false,
            model := some ⟨[], [], em.ensemble⟩,
            options := stringifyOptions b.options }, ?_, ?_, ?_⟩
  · unfold XGBoost.toJSON
    rw [hb]
    rfl
  · unfold XGBoost.load constructorLoad
    rw [if_neg (by simp)]
    simp [specEngine, SpecEngine.deserialize_serialize]
  · unfold XGBoost.predict
    cases h : checkMatrix D with
    | error e => rfl
    | ok X =>
      rw [hb]
      rfl

def w1em : SpecEngine.EngineModel :=
  ⟨[[1], [2]], [1, 2],
   ⟨"reg:linear", 3/10, 0, 1, [[SpecEngine.TNode.leaf 7]]⟩⟩

def w1b : XGBoost SpecEngine.EngineModel :=
  ⟨false, some w1em, [("objective", JSValue.str "reg:linear")]⟩

/-- Witness for C1 at a concrete trained booster and dataset. -/
theorem claim1_witness :
    w1b.model = some w1em ∧
    ∃ sm b2, XGBoost.toJSON specEngine w1b = .ok sm ∧
      XGBoost.load specEngine sm = .ok b2 ∧
      XGBoost.predict specEngine b2 [[(5 : ℚ)]] =
        XGBoost.predict specEngine w1b [[(5 : ℚ)]] :=
  ⟨rfl, claim1_serialization_roundtrip w1b w1em rfl [[(5 : ℚ)]]⟩

/-- C2 counterexample: a 10-row training set with a 9-entry label vector does
not fail at all — `train` performs no dimension validation (the claimed
`DimensionMismatch` is never raised). -/
theorem claim2_counterexample :
    (XGBoost.train specEngine (constructorFresh [])
      [[(1 : ℚ)], [2], [3], [4], [5], [6], [7], [8], [9], [10]]
      [(1 : ℚ), 2, 3, 4, 5, 6, 7, 8, 9]).isOk = true := by decide

/-- C2 (amended): `train` performs no label-length validation.  Whenever the
training matrix passes `Matrix.checkMatrix`, the call raises no error —
there is no `DimensionMismatch` (or any other length check) anywhere in
`train` — and the resulting model handle is exactly the engine pipeline
`train_full ∘ set_param* ∘ create_model` applied to the matrix's flattened
data and row/column counts together with the label vector *exactly as
passed*, its length unchecked and regardless of whether it matches the row
count. -/
theorem claim2_amended {M : Type} (api : EngineAPI M) (b : XGBoost M)
    (X : List (List ℚ)) (labels : List ℚ)
    (hX : (checkMatrix X).isOk = true) :
    (XGBoost.train api b X labels).isOk = true ∧
    (trainResultState (XGBoost.train api b X labels)).model =
      some (api.train_full
        (setParams api
          (api.create_model X.flatten labels X.length (X.headD []).length)
          (trainResultState (XGBoost.train api b X labels)).options)
        (lookupJS (trainResultState (XGBoost.train api b X labels)).options
          "iterations")) := by
  unfold XGBoost.train
  cases h : checkMatrix X with
  | error e =>
    rw [h] at hX
    simp [Except.isOk, Except.toBool] at hX
  | ok Y =>
    have hY : Y = X := checkMatrix_ok_eq X Y h
    subst hY
    exact ⟨rfl, rfl⟩

/-- Witness for C2 (amended) at a concrete 2-row matrix with a single label. -/
theorem claim2_witness :
    (checkMatrix [[(1 : ℚ)], [2]]).isOk = true ∧
    ((XGBoost.train specEngine (constructorFresh [])
        [[(1 : ℚ)], [2]] [(1 : ℚ)]).isOk = true ∧
      (trainResultState (XGBoost.train specEngine (constructorFresh [])
          [[(1 : ℚ)], [2]] [(1 : ℚ)])).model =
        some (specEngine.train_full
          (setParams specEngine
            (specEngine.create_model
              ([[(1 : ℚ)], [2]] : List (List ℚ)).flatten [(1 : ℚ)]
              ([[(1 : ℚ)], [2]] : List (List ℚ)).length
              (([[(1 : ℚ)], [2]] : List (List ℚ)).headD []).length)
            (trainResultState (XGBoost.train specEngine (constructorFresh [])
                [[(1 : ℚ)], [2]] [(1 : ℚ)])).options)
          (lookupJS (trainResultState (XGBoost.train specEngine
              (constructorFresh []) [[(1 : ℚ)], [2]] [(1 : ℚ)])).options
            "iterations"))) :=
  ⟨by decide,
   claim2_amended specEngine (constructorFresh []) [[(1 : ℚ)], [2]]
     [(1 : ℚ)] (by decide)⟩

/-- C3 counterexample: a `multi:softmax` booster, trained on an input the
matrix check rejects, fails — yet its options afterwards contain a
`num_class` entry that was not there before the call: the failed `train` is
not all-or-nothing. -/
theorem claim3_counterexample :
    (XGBoost.train specEngine
      (constructorFresh (M := SpecEngine.EngineModel)
        [("objective", JSValue.str "multi:softmax")])
      ([] : List (List ℚ)) [(0 : ℚ), 1]).isOk = false ∧
    lookupJS (constructorFresh (M := SpecEngine.EngineModel)
      [("objective", JSValue.str "multi:softmax")]).options "num_class" = none ∧
    lookupJS (trainResultState (XGBoost.train specEngine
      (constructorFresh (M := SpecEngine.EngineModel)
        [("objective", JSValue.str "multi:softmax")])
      ([] : List (List ℚ)) [(0 : ℚ), 1])).options "num_class"
      = some (JSValue.str "2") :=
  ⟨by decide, by decide, by decide⟩

/-- C3 (amended): a failed `train` leaves `model` and `checkLabels` exactly as
they were, and leaves `options` unchanged except that, for a `multi:softmax`
booster, `num_class` has already been set to the distinct label count (the
assignment precedes the matrix check, and the throw does not undo it). -/
theorem claim3_amended {M : Type} (api : EngineAPI M) (b : XGBoost M)
    (X : List (List ℚ)) (labels : List ℚ) (e : JSError) (b2 : XGBoost M)
    (h : XGBoost.train api b X labels = .error (e, b2)) :
    b2.model = b.model ∧ b2.checkLabels = b.checkLabels ∧
    b2.options = (if b.checkLabels then
        setKeyJS b.options "num_class"
          (JSValue.str (toString labels.dedup.length))
      else b.options) := by
  unfold XGBoost.train at h
  cases hc : checkMatrix X with
  | ok Y =>
    rw [hc] at h
    simp at h
  | error e0 =>
    rw [hc] at h
    simp only [Except.error.injEq, Prod.mk.injEq] at h
    obtain ⟨-, hb2⟩ := h
    rw [← hb2]
    by_cases hcl : b.checkLabels <;> simp [hcl]

def w3b : XGBoost SpecEngine.EngineModel :=
  constructorFresh [("objective", JSValue.str "multi:softmax")]

def w3b2 : XGBoost SpecEngine.EngineModel :=
  { w3b with options := setKeyJS w3b.options "num_class" (JSValue.str "0") }

/-- Witness for C3 (amended) at a concrete failing `train` call. -/
theorem claim3_witness :
    XGBoost.train specEngine w3b ([] : List (List ℚ)) ([] : List ℚ)
      = .error (.typeError "Data must be a 2D array with at least one element",
          w3b2) ∧
    (w3b2.model = w3b.model ∧ w3b2.checkLabels = w3b.checkLabels ∧
      w3b2.options = (if w3b.checkLabels then
          setKeyJS w3b.options "num_class"
            (JSValue.str (toString (List.dedup ([] : List ℚ)).length))
        else w3b.options)) :=
  ⟨rfl, claim3_amended specEngine w3b [] [] _ w3b2 rfl⟩

/-- C4 counterexample: on a freshly constructed, never-trained booster
(`model` absent), `predict` does not fail at all — the wrapper performs no
trained-model check and simply forwards the absent handle to the engine. -/
theorem claim4_counterexample :
    (constructorFresh (M := SpecEngine.EngineModel) []).model = none ∧
    (XGBoost.predict specEngine (constructorFresh [])
      [[(1 : ℚ), 2]]).isOk = true :=
  ⟨rfl, by decide⟩

/-- C4 (amended): on an untrained booster, `toJSON` (serialize) fails with
the no-model error, but `predict` performs no such check: it succeeds on any
input the matrix check accepts, returning whatever the engine computes for
the absent handle. -/
theorem claim4_amended {M : Type} (api : EngineAPI M) (b : XGBoost M)
    (hb : b.model = none) :
    XGBoost.toJSON api b = .error (.error "No model trained to save") ∧
    ∀ D, (checkMatrix D).isOk = true →
      (XGBoost.predict api b D).isOk = true := by
  constructor
  · unfold XGBoost.toJSON
    rw [hb]
  · intro D hD
    unfold XGBoost.predict
    cases h : checkMatrix D with
    | error e =>
      rw [h] at hD
      simp [Except.isOk, Except.toBool] at hD
    | ok X => rfl

/-- Witness for C4 (amended) at a concrete untrained booster. -/
theorem claim4_witness :
    (constructorFresh (M := SpecEngine.EngineModel)
      [("eta", JSValue.num (1/2))]).model = none ∧
    (XGBoost.toJSON specEngine
        (constructorFresh [("eta", JSValue.num (1/2))])
        = .error (.error "No model trained to save") ∧
      ∀ D, (checkMatrix D).isOk = true →
        (XGBoost.predict specEngine
          (constructorFresh [("eta", JSValue.num (1/2))]) D).isOk = true) :=
  ⟨rfl, claim4_amended specEngine
    (constructorFresh [("eta", JSValue.num (1/2))]) rfl⟩

/-- C5: the static `load` rejects every saved object whose `name` tag is not
`ml-xgboost` with the invalid-model `RangeError` (the wrapper's realization
of `InvalidFormat`), producing no booster. -/
theorem claim5_load_rejects_wrong_tag {M : Type} (api : EngineAPI M)
    (saved : SavedModel) (h : saved.name ≠ "ml-xgboost") :
    XGBoost.load api saved =
      .error (.rangeError ("Invalid model: " ++ saved.name)) := by
  unfold XGBoost.load
  rw [if_pos h]

/-- Witness for C5 at a concrete foreign tag. -/
theorem claim5_witness :
    (({ name := "my-model", model := [], options := [] } : SavedModel).name
      ≠ "ml-xgboost") ∧
    XGBoost.load specEngine { name := "my-model", model := [], options := [] }
      = .error (.rangeError ("Invalid model: " ++
          ({ name := "my-model", model := [], options := [] } : SavedModel).name)) :=
  ⟨by decide,
   claim5_load_rejects_wrong_tag specEngine
     { name := "my-model", model := [], options := [] } (by decide)⟩

/-- C6 counterexample: construction with `max_depth = -5` (not a positive
integer) and `iterations = 0` (not a positive integer) does not fail — the
constructor performs no range validation and happily records the invalid
values in the new booster's options. -/
theorem claim6_counterexample :
    lookupJS (constructorFresh (M := SpecEngine.EngineModel)
      [("max_depth", JSValue.num (-5)),
       ("iterations", JSValue.num 0)]).options "max_depth"
      = some (JSValue.str "-5") ∧
    lookupJS (constructorFresh (M := SpecEngine.EngineModel)
      [("max_depth", JSValue.num (-5)),
       ("iterations", JSValue.num 0)]).options "iterations"
      = some (JSValue.num 0) :=
  ⟨by decide, by decide⟩

/-- C6 (amended): construction never fails, whatever the hyperparameter
values — every options object is accepted, each user-supplied value
overriding the default under its key and being stored stringified (except
under `iterations`). -/
theorem claim6_amended {M : Type} (opts : JSObject) (k : String) (v : JSValue)
    (hk : lookupJS opts k = some v) :
    lookupJS (constructorFresh (M := M) opts).options k =
      some (if k = "iterations" then v else JSValue.str v.toJSString) := by
  unfold constructorFresh
  rw [lookupJS_stringify, lookupJS_objAssign, hk]
  rfl

/-- Witness for C6 (amended): a learning rate of `7` (outside `(0,1]`) is
accepted and stored. -/
theorem claim6_witness :
    lookupJS [("eta", JSValue.num 7)] "eta" = some (JSValue.num 7) ∧
    lookupJS (constructorFresh (M := SpecEngine.EngineModel)
        [("eta", JSValue.num 7)]).options "eta" =
      some (if "eta" = "iterations" then JSValue.num 7
        else JSValue.str (JSValue.num 7).toJSString) :=
  ⟨by decide, claim6_amended [("eta", JSValue.num 7)] "eta" _ (by decide)⟩

/-- C7: for a booster constructed with the `multi:softmax` objective,
`train` records `num_class` — the number of distinct values in the label
vector (`new Set(labels).size`) — in the option bag.  The assignment is the
first statement of `train`: it is visible in the resulting state of both the
failing and the succeeding branch (hence before any engine call), and, being
a non-`iterations` option, it is subsequently forwarded to `set_param`. -/
theorem claim7_multiclass_num_class {M : Type} (api : EngineAPI M)
    (opts : JSObject)
    (h : lookupJS opts "objective" = some (JSValue.str "multi:softmax"))
    (X : List (List ℚ)) (labels : List ℚ) :
    lookupJS (trainResultState
        (XGBoost.train api (constructorFresh opts) X labels)).options
      "num_class" = some (JSValue.str (toString labels.dedup.length)) := by
  have hcl : (constructorFresh (M := M) opts).checkLabels = true := by
    simp [constructorFresh, h]
  unfold XGBoost.train
  cases hc : checkMatrix X with
  | error e =>
    simp only [hcl, if_true, trainResultState]
    exact lookupJS_setKeyJS_self _ _ _
  | ok Y =>
    simp only [hcl, if_true, trainResultState]
    exact lookupJS_setKeyJS_self _ _ _

/-- Witness for C7 at a concrete multi-class booster and labels. -/
theorem claim7_witness :
    lookupJS [("objective", JSValue.str "multi:softmax")] "objective"
      = some (JSValue.str "multi:softmax") ∧
    lookupJS (trainResultState (XGBoost.train specEngine
        (constructorFresh [("objective", JSValue.str "multi:softmax")])
        [[(1 : ℚ)], [2]] [(3 : ℚ), 3])).options "num_class"
      = some (JSValue.str (toString ([(3 : ℚ), 3].dedup.length))) :=
  ⟨by decide,
   claim7_multiclass_num_class specEngine
     [("objective", JSValue.str "multi:softmax")] (by decide)
     [[(1 : ℚ)], [2]] [(3 : ℚ), 3]⟩

/-- C8: on any booster and any input matrix accepted by the matrix check,
`predict` returns a vector with exactly one entry per input row. -/
theorem claim8_predict_length {M : Type} (api : EngineAPI M) (b : XGBoost M)
    (m : M) (_hb : b.model = some m) (D : List (List ℚ))
    (hD : (checkMatrix D).isOk = true) :
    ∃ ys, XGBoost.predict api b D = .ok ys ∧ ys.length = D.length := by
  unfold XGBoost.predict
  cases h : checkMatrix D with
  | error e =>
    rw [h] at hD
    simp [Except.isOk, Except.toBool] at hD
  | ok X =>
    have hX : X = D := checkMatrix_ok_eq D X h
    subst hX
    exact ⟨_, rfl, by simp⟩

def w8m : SpecEngine.EngineModel :=
  ⟨[], [], ⟨"reg:linear", 3/10, 0, 2, [[SpecEngine.TNode.leaf 1]]⟩⟩

def w8b : XGBoost SpecEngine.EngineModel := ⟨false, some w8m, []⟩

/-- Witness for C8 at a concrete trained booster and 2-row matrix. -/
theorem claim8_witness :
    w8b.model = some w8m ∧
    (checkMatrix [[(1 : ℚ), 2], [3, 4]]).isOk = true ∧
    ∃ ys, XGBoost.predict specEngine w8b [[(1 : ℚ), 2], [3, 4]] = .ok ys ∧
      ys.length = ([[(1 : ℚ), 2], [3, 4]] : List (List ℚ)).length :=
  ⟨rfl, by decide,
   claim8_predict_length specEngine w8b w8m rfl [[(1 : ℚ), 2], [3, 4]]
     (by decide)⟩

/-- C9: every object `toJSON` produces carries the name tag `ml-xgboost`,
which is exactly the tag the static `load` accepts — so `load` applied to a
`toJSON` result never takes its invalid-model (`RangeError`) branch. -/
theorem claim9_toJSON_tag_accepted {M : Type} (api : EngineAPI M)
    (b : XGBoost M) (sm : SavedModel) (h : XGBoost.toJSON api b = .ok sm) :
    sm.name = "ml-xgboost" ∧
    XGBoost.load api sm = constructorLoad api sm ∧
    ∀ msg, XGBoost.load api sm ≠ .error (.rangeError msg) := by
  have hname : sm.name = "ml-xgboost" := by
    unfold XGBoost.toJSON at h
    split at h
    · exact absurd h (by simp)
    · split at h
      · exact absurd h (by simp)
      · simp only [Except.ok.injEq] at h
        rw [← h]
  have hload : XGBoost.load api sm = constructorLoad api sm := by
    unfold XGBoost.load
    rw [if_neg (by rw [hname]; simp)]
  refine ⟨hname, hload, ?_⟩
  intro msg
  rw [hload]
  unfold constructorLoad
  cases api.load_model sm.model <;> simp

def w9m : SpecEngine.EngineModel :=
  ⟨[], [], ⟨"reg:linear", 3/10, 0, 1, [[SpecEngine.TNode.leaf 2]]⟩⟩

def w9b : XGBoost SpecEngine.EngineModel := ⟨false, some w9m, []⟩

def w9sm : SavedModel :=
  { name := "ml-xgboost",
    model := SpecEngine.serializeEnsemble w9m.ensemble,
    options := [] }

/-- Witness for C9 at a concrete trained booster's saved form. -/
theorem claim9_witness :
    XGBoost.toJSON specEngine w9b = .ok w9sm ∧
    (w9sm.name = "ml-xgboost" ∧
      XGBoost.load specEngine w9sm = constructorLoad specEngine w9sm ∧
      ∀ msg, XGBoost.load specEngine w9sm ≠ .error (.rangeError msg)) :=
  ⟨rfl, claim9_toJSON_tag_accepted specEngine w9b w9sm rfl⟩

/-- C10: after construction by either path, every option value stored under a
key other than `iterations` is a string (the constructor's `toString` loop),
and `train`'s `set_param` loop forwards exactly the non-`iterations` entries
of the option bag, with those stored values, in key order. -/
theorem claim10_options_strings_forwarded {M : Type} (api : EngineAPI M) :
    (∀ (opts : JSObject) (kv : String × JSValue),
        kv ∈ (constructorFresh (M := M) opts).options → kv.1 ≠ "iterations" →
        ∃ s, kv.2 = JSValue.str s) ∧
    (∀ (saved : SavedModel) (b : XGBoost M),
        constructorLoad api saved = .ok b →
        ∀ kv ∈ b.options, kv.1 ≠ "iterations" → ∃ s, kv.2 = JSValue.str s) ∧
    (∀ (m : M) (opts : JSObject),
        setParams api m opts =
          (setParamCalls opts).foldl
            (fun acc kv => api.set_param acc kv.1 kv.2) m) := by
  refine ⟨?_, ?_, ?_⟩
  · intro opts kv hm hk
    exact stringify_values_are_strings _ kv hm hk
  · intro saved b hload kv hm hk
    unfold constructorLoad at hload
    cases hl : api.load_model saved.model with
    | none =>
      rw [hl] at hload
      simp at hload
    | some m =>
      rw [hl] at hload
      simp only [Except.ok.injEq] at hload
      rw [← hload] at hm
      exact stringify_values_are_strings _ kv hm hk
  · intro m opts
    exact setParams_eq_calls api m opts

/-- Witness for C10: the stringified `max_depth` entry of a fresh booster. -/
theorem claim10_witness :
    (("max_depth", JSValue.str "5")
        ∈ (constructorFresh (M := SpecEngine.EngineModel) []).options ∧
      ("max_depth" : String) ≠ "iterations") ∧
    ∃ s, (("max_depth", JSValue.str "5") : String × JSValue).2
      = JSValue.str s :=
  ⟨⟨by decide, by decide⟩,
   (claim10_options_strings_forwarded (M := SpecEngine.EngineModel)
       specEngine).1 [] ("max_depth", JSValue.str "5") (by decide) (by decide)⟩

end MlXGBoost
